import Mathlib

/-!
Verification development for the python-fmdata client library.

The definitions below are a shallow embedding of the session-management,
query-builder, pagination-deduplication and result-cache code of the
repository (src/fmdata/fmclient.py, src/fmdata/orm.py, and the
CacheIterator component known from its test suite).  Theorems at the end
settle the behavioural claims about this code.
-/

namespace FMData

/-- One response message of the FileMaker Data API (results.Message):
a numeric code plus a human-readable text. -/
structure Message where
  code : Int
  message : String
deriving DecidableEq, Repr

/-- Modelled from the spec: the distinguished error code that means
"invalid/expired token" (const.FMErrorEnum.INVALID_FILEMAKER_DATA_API_TOKEN;
src/fmdata/const.py is not included under src/).  The spec only requires it
to be one distinguished non-zero code. -/
def INVALID_FILEMAKER_DATA_API_TOKEN : Int := 952

/-- A structured API result as far as the session wrapper inspects it
(results.BaseResult): its list of messages, plus an opaque payload tag that
lets distinct results be told apart. -/
structure FMResult where
  messages : List Message
  payload : Nat
deriving DecidableEq, Repr

/-- Modelled from the spec: BaseResult.get_errors (called at
fmclient.py:63 but absent from src/fmdata/results.py) returns the result's
error messages whose code is among include_codes. -/
def get_errors (r : FMResult) (includeCodes : List Int) : List Message :=
  r.messages.filter (fun m => m.code ∈ includeCodes)

/-- Whether a result carries an invalid-token error message: the wrapper's
check at fmclient.py:62-63, true when
next(result.get_errors(include_codes=[INVALID_FILEMAKER_DATA_API_TOKEN]), None)
is not None. -/
def has_invalid_token_error (r : FMResult) : Bool :=
  ((get_errors r [INVALID_FILEMAKER_DATA_API_TOKEN]).head?).isSome

/-- The FMClient configuration fields that session management reads
(fmclient.FMClient.__init__): the too-fast login cool-down (None disables
the guard) and the auto_manage_session switch.  Times are modelled as
natural numbers. -/
structure ClientConfig where
  too_fast_login_retry_timeout : Option Nat
  auto_manage_session : Bool
deriving DecidableEq, Repr

/-- The mutable session fields of an FMClient (fmclient.FMClient):
_token, _session_invalid and _session_last_login_retry.  A fresh client
starts with token None, _session_invalid True, last retry None. -/
structure SessionState where
  token : Option String
  session_invalid : Bool
  last_login_retry : Option Nat
deriving DecidableEq, Repr

/-- fmclient.FMClient._raise_exception_if_too_fast (fmclient.py:491-501):
returns true exactly when the guard raises LoginRetriedTooFastException,
i.e. when a cool-down is configured, a previous login attempt is recorded,
and the elapsed time since it is at most the cool-down. -/
def _raise_exception_if_too_fast (cfg : ClientConfig) (s : SessionState) (now : Nat) : Bool :=
  match cfg.too_fast_login_retry_timeout, s.last_login_retry with
  | some timeout, some lastRetry => decide (now - lastRetry ≤ timeout)
  | _, _ => false

/-- The errors session-managed code can raise. -/
inductive SessionErr
  /-- LoginRetriedTooFastException from the too-fast guard. -/
  | tooFast
  /-- An exception propagated out of login_provider.login. -/
  | loginFailed
  /-- "Session is invalid. Please call login first." when auto manage is off. -/
  | invalidSessionNoAuto
  /-- FileMakerErrorException.from_response_message on terminal invalid token. -/
  | fmErrorFromMessage (m : Message)
deriving DecidableEq, Repr

/-- fmclient.FMClient.login (fmclient.py:110-131).  The provider outcome is
some token on success, none when the provider raises.  On success the token
is stored and the session marked valid; on failure the token is cleared and
the session marked invalid and the error propagates; in both cases (finally)
_session_last_login_retry is set to the current time. -/
def login (outcome : Option String) (now : Nat) :
    Except SessionErr Unit × SessionState :=
  match outcome with
  | some tok =>
      (Except.ok (), { token := some tok, session_invalid := false, last_login_retry := some now })
  | none =>
      (Except.error SessionErr.loginFailed,
        { token := none, session_invalid := true, last_login_retry := some now })

/-- fmclient.FMClient.safe_login_if_not (fmclient.py:133-143), sequential
view: if the session is invalid, (under the session lock) re-check, run the
too-fast guard when exception_if_too_fast is set, then log in.  Returns the
outcome, the new state, and the number of provider login attempts made. -/
def safe_login_if_not (cfg : ClientConfig) (outcome : Option String)
    (exceptionIfTooFast : Bool) (s : SessionState) (now : Nat) :
    Except SessionErr Unit × SessionState × Nat :=
  if s.session_invalid then
    if exceptionIfTooFast && _raise_exception_if_too_fast cfg s now then
      (Except.error SessionErr.tooFast, s, 0)
    else
      let (r, s2) := login outcome now
      (r, s2, 1)
  else (Except.ok (), s, 0)

/-- fmclient.FMClient.logout (fmclient.py:145-158): when the session is
invalid it returns None at once; otherwise it issues the DELETE session call
and returns its LogoutResult (modelled as some ()).  The stored token and
the _session_invalid flag are not modified on either path.  The third
component counts network calls made. -/
def logout (s : SessionState) : Option Unit × SessionState × Nat :=
  if s.session_invalid then (none, s, 0)
  else (some (), s, 1)

/-- The observable outcome of one wrapped operation call: the returned
result or raised error, the final session state, the number of times the
wrapped operation was invoked, and the number of provider login attempts. -/
structure WrapperOutcome where
  result : Except SessionErr FMResult
  finalState : SessionState
  opCalls : Nat
  loginCalls : Nat
deriving Repr

/-- fmclient._auto_manage_session (fmclient.py:48-75).  When
auto_manage_session is off: raise if the session is invalid, else call the
operation once.  Otherwise the two-iteration loop, unrolled: ensure login
(safe_login_if_not with its default exception_if_too_fast=True), invoke the
operation, return its result unless it carries an invalid-token error, in
which case mark the session invalid and run one more iteration; a second
invalid-token result raises FileMakerErrorException from that message.
`op n` is the result of the (n+1)-th invocation of the wrapped operation. -/
def _auto_manage_session (cfg : ClientConfig) (outcome : Option String)
    (op : Nat → FMResult) (s : SessionState) (now : Nat) : WrapperOutcome :=
  if cfg.auto_manage_session = false then
    if s.session_invalid then ⟨Except.error SessionErr.invalidSessionNoAuto, s, 0, 0⟩
    else ⟨Except.ok (op 0), s, 1, 0⟩
  else
    match safe_login_if_not cfg outcome true s now with
    | (Except.error e, s1, n1) => ⟨Except.error e, s1, 0, n1⟩
    | (Except.ok _, s1, n1) =>
      let r0 := op 0
      match (get_errors r0 [INVALID_FILEMAKER_DATA_API_TOKEN]).head? with
      | none => ⟨Except.ok r0, s1, 1, n1⟩
      | some _ =>
        let s2 : SessionState := { s1 with session_invalid := true }
        match safe_login_if_not cfg outcome true s2 now with
        | (Except.error e, s3, n2) => ⟨Except.error e, s3, 1, n1 + n2⟩
        | (Except.ok _, s3, n2) =>
          let r1 := op 1
          match (get_errors r1 [INVALID_FILEMAKER_DATA_API_TOKEN]).head? with
          | none => ⟨Except.ok r1, s3, 2, n1 + n2⟩
          | some m =>
            ⟨Except.error (SessionErr.fmErrorFromMessage m),
              { s3 with session_invalid := true }, 2, n1 + n2⟩

/-! ## Query builder: slice window and mutators (src/fmdata/orm.py) -/

/-- The slice window of a query manager: the fields _slice_start (initially
0) and _slice_stop (initially None) shared by orm.ModelManager and
orm.PortalManager. -/
structure SliceWindow where
  start : Nat
  stop : Option Nat
deriving DecidableEq, Repr

/-- orm.ModelManager._set_new_slice (orm.py:899-910) and the identical
orm.PortalManager._set_new_slice (orm.py:232-243): compose a new slice
request onto the stored window.  The stop is updated first, using the old
start; the start is then updated against the (possibly new) stop. -/
def _set_new_slice (w : SliceWindow) (start stop : Option Nat) : SliceWindow :=
  let w1 :=
    match stop with
    | some st =>
      match w.stop with
      | some oldStop => { w with stop := some (min oldStop (w.start + st)) }
      | none => { w with stop := some (w.start + st) }
    | none => w
  match start with
  | some sa =>
    match w1.stop with
    | some newStop => { w1 with start := min newStop (w1.start + sa) }
    | none => { w1 with start := w1.start + sa }
  | none => w1

/-- orm.ModelManager._is_sliced (orm.py:896-897) / orm.PortalManager._is_sliced
(orm.py:229-230): a manager counts as sliced when its start is non-zero or
its stop is set. -/
def _is_sliced (w : SliceWindow) : Bool :=
  w.start != 0 || w.stop.isSome

/-- Errors raised locally by query construction. -/
inductive ORMError
  /-- Python ValueError with the given message. -/
  | valueError (msg : String)
  /-- Python TypeError with the given message. -/
  | typeError (msg : String)
  /-- Python KeyError / AttributeError on a missing field or portal. -/
  | missingField (name : String)
deriving DecidableEq, Repr

/-- orm.ModelManager._assert_not_sliced (orm.py:759-761) /
orm.PortalManager._assert_not_sliced (orm.py:225-227): raise TypeError once
a slice has been taken. -/
def _assert_not_sliced (w : SliceWindow) : Except ORMError Unit :=
  if _is_sliced w then
    Except.error (ORMError.typeError "Cannot filter a query once a slice has been taken.")
  else Except.ok ()

/-- orm.escape_filemaker_special_characters (orm.py:530-553) on strings:
prefix each FileMaker find operator character among @ * # ? ! = < > " with
a backslash. -/
def escape_filemaker_special_characters (s : String) : String :=
  String.mk (s.data.flatMap (fun c =>
    if c ∈ ['@', '*', '#', '?', '!', '=', '<', '>', '"'] then ['\\', c] else [c]))

/-- An explicit field criterion (orm.Criteria).  Operand values are the
already-typed strings the schema codec produces; the codec itself is an
out-of-scope collaborator, so Criteria value serialization
(field._serialize) is the identity here. -/
inductive FieldCriteria
  | raw (value : String)
  | exact (value : String)
  | startsWith (value : String)
  | endsWith (value : String)
  | containsValue (value : String)
  | gt (value : String)
  | gte (value : String)
  | lt (value : String)
  | lte (value : String)
  | range (range_from range_to : String)
deriving DecidableEq, Repr

/-- The convert methods of orm.Criteria.* (orm.py:565-630): turn a criterion
into the FileMaker query operand string, escaping the operand. -/
def convert_criteria : FieldCriteria → String
  | FieldCriteria.raw v => v
  | FieldCriteria.exact v => "==" ++ escape_filemaker_special_characters v
  | FieldCriteria.startsWith v => "==" ++ escape_filemaker_special_characters v ++ "*"
  | FieldCriteria.endsWith v => "==*" ++ escape_filemaker_special_characters v
  | FieldCriteria.containsValue v => "==*" ++ escape_filemaker_special_characters v ++ "*"
  | FieldCriteria.gt v => ">" ++ escape_filemaker_special_characters v
  | FieldCriteria.gte v => ">=" ++ escape_filemaker_special_characters v
  | FieldCriteria.lt v => "<" ++ escape_filemaker_special_characters v
  | FieldCriteria.lte v => "<=" ++ escape_filemaker_special_characters v
  | FieldCriteria.range a b =>
      escape_filemaker_special_characters a ++ "..." ++ escape_filemaker_special_characters b

/-- A keyword-argument value passed to find/omit: an explicit FieldCriteria
instance, a plain (already-typed, string-valued) operand, or a list of
operands (as the range operator expects). -/
inductive KwargValue
  | crit (c : FieldCriteria)
  | val (v : String)
  | vals (vs : List String)
deriving DecidableEq, Repr

/-- The field catalog of a model: declared field name to FileMaker field
name (orm.ModelMeta.fields with ModelMetaField.filemaker_name). -/
def FieldCatalog := List (String × String)

/-- Split a character list at the first occurrence of "__", python's
key.split("__", 1): none when "__" does not occur. -/
def split_dunder : List Char → Option (List Char × List Char)
  | [] => none
  | '_' :: '_' :: rest => some ([], rest)
  | c :: rest =>
    match split_dunder rest with
    | none => none
    | some (l, r) => some (c :: l, r)

/-- Resolution of one find/omit keyword to a criterion, the suffix table of
orm.ModelManager._process_find_omit_kwargs (orm.py:714-749): an explicit
FieldCriteria is used as is; a key without "__" means Exact; otherwise the
key is split at the first "__" and the suffix selects the operator, with
range demanding exactly a 2-element list and unknown suffixes rejected. -/
def resolve_criteria (key : String) (value : KwargValue) :
    Except ORMError (String × FieldCriteria) :=
  match value with
  | KwargValue.crit c => Except.ok (key, c)
  | v =>
    let plain : KwargValue → Except ORMError String := fun
      | KwargValue.val s => Except.ok s
      | _ => Except.error (ORMError.valueError "operator expects a single operand")
    match split_dunder key.data with
    | none =>
      (match plain v with
      | Except.ok s => Except.ok (key, FieldCriteria.exact s)
      | Except.error e => Except.error e)
    | some (fieldChars, typeChars) =>
      let fieldName := String.mk fieldChars
      let queryType := String.mk typeChars
      let withPlain : (String → FieldCriteria) → Except ORMError (String × FieldCriteria) :=
        fun mk =>
          match plain v with
          | Except.ok s => Except.ok (fieldName, mk s)
          | Except.error e => Except.error e
      if queryType == "raw" then withPlain FieldCriteria.raw
      else if queryType == "exact" then withPlain FieldCriteria.exact
      else if queryType == "startswith" then withPlain FieldCriteria.startsWith
      else if queryType == "endswith" then withPlain FieldCriteria.endsWith
      else if queryType == "contains" then withPlain FieldCriteria.containsValue
      else if queryType == "gt" then withPlain FieldCriteria.gt
      else if queryType == "gte" then withPlain FieldCriteria.gte
      else if queryType == "lt" then withPlain FieldCriteria.lt
      else if queryType == "lte" then withPlain FieldCriteria.lte
      else if queryType == "range" then
        match v with
        | KwargValue.vals [a, b] => Except.ok (fieldName, FieldCriteria.range a b)
        | _ => Except.error (ORMError.valueError
            "Value for query type range must be a list or tuple with 2 elements")
      else Except.error (ORMError.valueError
            ("Unknown query type " ++ queryType ++ " on field " ++ key))

/-- orm.ModelManager._process_find_omit_kwargs (orm.py:712-757): resolve
each keyword to a criterion, look the field up in the catalog
(_retrive_meta_field_form_field_name raises on a missing field), and
convert the criterion to its FileMaker operand keyed by the FileMaker
field name. -/
def _process_find_omit_kwargs (catalog : FieldCatalog)
    (kwargs : List (String × KwargValue)) :
    Except ORMError (List (String × String)) :=
  match kwargs with
  | [] => Except.ok []
  | (key, value) :: rest =>
    match resolve_criteria key value with
    | Except.error e => Except.error e
    | Except.ok (fieldName, crit) =>
      match List.lookup fieldName catalog with
      | none => Except.error (ORMError.missingField fieldName)
      | some fmName =>
        match _process_find_omit_kwargs catalog rest with
        | Except.error e => Except.error e
        | Except.ok tailCriteria =>
          Except.ok ((fmName, convert_criteria crit) :: tailCriteria)

/-- One request clause (orm.SearchCriteria): converted criteria keyed by
FileMaker field name plus the omit flag. -/
structure SearchCriteria where
  fields : List (String × String)
  is_omit : Bool
deriving DecidableEq, Repr

/-- orm.SingleSortInput: a FileMaker field name with "ascend"/"descend". -/
structure SingleSortInput where
  fieldName : String
  sortOrder : String
deriving DecidableEq, Repr

/-- orm.ScriptInput: script name and optional parameter. -/
structure ScriptInput where
  name : String
  param : Option String
deriving DecidableEq, Repr

/-- orm.SinglePortalInput: the offset/limit prefetch window of a portal. -/
structure SinglePortalInput where
  offset : Int
  limit : Int
deriving DecidableEq, Repr

/-- The query-specification fields of orm.ModelManager that the chainable
mutators read and write (orm.py:652-664); result caches are not part of the
specification value. -/
structure ManagerState where
  search_criteria : List SearchCriteria
  sort : List SingleSortInput
  scripts : List (String × ScriptInput)
  chunk_size : Option Nat
  portals : List (String × SinglePortalInput)
  window : SliceWindow
  response_layout : Option String
deriving DecidableEq, Repr

/-- Update an association list at a key, python dict assignment. -/
def dictInsert {α : Type} (l : List (String × α)) (k : String) (v : α) :
    List (String × α) :=
  match l with
  | [] => [(k, v)]
  | (k0, v0) :: rest =>
      if k0 == k then (k, v) :: rest else (k0, v0) :: dictInsert rest k v

/-- orm.ModelManager.find (orm.py:763-769): assert not sliced, process the
keyword criteria, and return a clone with the new non-omit clause
appended. -/
def find (m : ManagerState) (catalog : FieldCatalog)
    (kwargs : List (String × KwargValue)) : Except ORMError ManagerState :=
  match _assert_not_sliced m.window with
  | Except.error e => Except.error e
  | Except.ok _ =>
    match _process_find_omit_kwargs catalog kwargs with
    | Except.error e => Except.error e
    | Except.ok criteria =>
      Except.ok { m with search_criteria :=
        m.search_criteria ++ [{ fields := criteria, is_omit := false }] }

/-- orm.ModelManager.omit (orm.py:771-777): as find, with the omit flag set
("omit" is reserved in Lean, hence the name omit_find). -/
def omit_find (m : ManagerState) (catalog : FieldCatalog)
    (kwargs : List (String × KwargValue)) : Except ORMError ManagerState :=
  match _assert_not_sliced m.window with
  | Except.error e => Except.error e
  | Except.ok _ =>
    match _process_find_omit_kwargs catalog kwargs with
    | Except.error e => Except.error e
    | Except.ok criteria =>
      Except.ok { m with search_criteria :=
        m.search_criteria ++ [{ fields := criteria, is_omit := true }] }

/-- Per-field step of orm.ModelManager.order_by: strip a leading "-" for
descending order and resolve the field in the catalog. -/
def resolve_sort_field (catalog : FieldCatalog) (fieldName : String) :
    Except ORMError SingleSortInput :=
  let (direction, name) :=
    if fieldName.startsWith "-" then ("descend", fieldName.drop 1)
    else ("ascend", fieldName)
  match List.lookup name catalog with
  | none => Except.error (ORMError.missingField name)
  | some fmName => Except.ok { fieldName := fmName, sortOrder := direction }

/-- orm.ModelManager.order_by (orm.py:787-803): assert not sliced, then
append one SingleSortInput per argument to a clone. -/
def order_by (m : ManagerState) (catalog : FieldCatalog)
    (fieldNames : List String) : Except ORMError ManagerState :=
  match _assert_not_sliced m.window with
  | Except.error e => Except.error e
  | Except.ok _ =>
    match fieldNames.mapM (resolve_sort_field catalog) with
    | Except.error e => Except.error e
    | Except.ok sorts => Except.ok { m with sort := m.sort ++ sorts }

/-- orm.ModelManager.chunking (orm.py:805-810): assert not sliced, then set
the chunk size on a clone. -/
def chunking (m : ManagerState) (size : Nat) : Except ORMError ManagerState :=
  match _assert_not_sliced m.window with
  | Except.error e => Except.error e
  | Except.ok _ => Except.ok { m with chunk_size := some size }

/-- orm.ModelManager.prefetch_portal (orm.py:812-831): assert not sliced,
validate the limit (not None, non-negative) and offset (not None, at least
1), resolve the portal in the portal catalog, and store its window on a
clone keyed by the portal's FileMaker name. -/
def prefetch_portal (m : ManagerState) (portalCatalog : FieldCatalog)
    (portal : String) (limit : Option Int) (offset : Option Int) :
    Except ORMError ManagerState :=
  match _assert_not_sliced m.window with
  | Except.error e => Except.error e
  | Except.ok _ =>
    if limit.isNone || limit.getD 0 < 0 then
      Except.error (ORMError.valueError "Limit must a number > 0.")
    else if offset.isNone || offset.getD 1 < 1 then
      Except.error (ORMError.valueError "Offset must a number >= 1.")
    else
      match List.lookup portal portalCatalog with
      | none => Except.error (ORMError.missingField portal)
      | some fmName =>
        let newPortals := dictInsert m.portals fmName ⟨offset.getD 1, limit.getD 0⟩
        Except.ok { m with portals := newPortals }

/-- orm.ModelManager.response_layout (orm.py:833-838): assert not sliced,
then set the response layout on a clone. -/
def response_layout (m : ManagerState) (layout : String) :
    Except ORMError ManagerState :=
  match _assert_not_sliced m.window with
  | Except.error e => Except.error e
  | Except.ok _ => Except.ok { m with response_layout := some layout }

/-- orm.ModelManager.prerequest_script (orm.py:840-845). -/
def prerequest_script (m : ManagerState) (name : String) (param : Option String) :
    Except ORMError ManagerState :=
  match _assert_not_sliced m.window with
  | Except.error e => Except.error e
  | Except.ok _ =>
    Except.ok { m with scripts := dictInsert m.scripts "prerequest" { name := name, param := param } }

/-- orm.ModelManager.presort_script (orm.py:847-852). -/
def presort_script (m : ManagerState) (name : String) (param : Option String) :
    Except ORMError ManagerState :=
  match _assert_not_sliced m.window with
  | Except.error e => Except.error e
  | Except.ok _ =>
    Except.ok { m with scripts := dictInsert m.scripts "presort" { name := name, param := param } }

/-- orm.ModelManager.after_script (orm.py:854-859). -/
def after_script (m : ManagerState) (name : String) (param : Option String) :
    Except ORMError ManagerState :=
  match _assert_not_sliced m.window with
  | Except.error e => Except.error e
  | Except.ok _ =>
    Except.ok { m with scripts := dictInsert m.scripts "after" { name := name, param := param } }

/-- A python slice literal as __getitem__ receives it: optional start, stop
and step, each possibly negative. -/
structure PySlice where
  start : Option Int
  stop : Option Int
  step : Option Int
deriving DecidableEq, Repr

/-- The validation-and-window part of orm.ModelManager.__getitem__ on a
slice key (orm.py:861-875) and the identical orm.PortalManager.__getitem__
(orm.py:245-259): reject a negative start or stop, reject a set stop that
is not greater than the (defaulted) start, and otherwise compose the new
window onto a clone.  Both checks run before any clone, cache access or
fetch. -/
def getitem_slice (w : SliceWindow) (k : PySlice) :
    Except ORMError SliceWindow :=
  if (k.start.elim false (fun a => decide (a < 0))) || (k.stop.elim false (fun b => decide (b < 0))) then
    Except.error (ORMError.valueError "Negative indexing is not supported.")
  else if k.stop.elim false (fun b => decide (b ≤ k.start.getD 0)) then
    Except.error (ORMError.valueError "Stop index must be greater than start index.")
  else
    Except.ok (_set_new_slice w (k.start.map Int.toNat) (k.stop.map Int.toNat))

/-- The validation-and-window part of orm.ModelManager.__getitem__ on an
integer key (orm.py:877-888) and the identical
orm.PortalManager.__getitem__ (orm.py:261-272): reject a negative index
before any fetch, otherwise narrow the window to [k, k+1). -/
def getitem_int (w : SliceWindow) (k : Int) : Except ORMError SliceWindow :=
  if k < 0 then
    Except.error (ORMError.valueError "Negative indexing is not supported.")
  else
    Except.ok (_set_new_slice w (some k.toNat) (some (k.toNat + 1)))

/-! ## Record streams and deduplication (src/fmdata/orm.py) -/

/-- One record of a portal data list in a response
(results: portal data entries): record id, mod id and raw fields. -/
structure PortalDataValue where
  record_id : String
  mod_id : String
  fields : List (String × String)
deriving DecidableEq, Repr

/-- One record of a page response (results: data entries): record id, mod
id, raw field data, and nested portal data keyed by portal name. -/
structure DataEntry where
  record_id : String
  mod_id : String
  field_data : List (String × String)
  portal_data : List (String × List PortalDataValue)
deriving DecidableEq, Repr

/-- One page of a paginated result as the record iterator reads it: the
decoded data list, which the API reports as None when the page is empty
(orm.py:1025-1026 skips such pages). -/
structure Page where
  data : Option (List DataEntry)
deriving DecidableEq, Repr

/-- Inner loop of orm.ModelManager.records_iterator_from_page_iterator
(orm.py:1028-1057) over one page's data list: drop an entry whose record id
is in the already-seen set, otherwise add its id and yield it.  Returns the
yielded entries and the updated seen set. -/
def dedup_entries : List DataEntry → List String → List DataEntry × List String
  | [], seen => ([], seen)
  | e :: es, seen =>
    if e.record_id ∈ seen then dedup_entries es seen
    else
      let (ys, seen2) := dedup_entries es (e.record_id :: seen)
      (e :: ys, seen2)

/-- orm.ModelManager.records_iterator_from_page_iterator (orm.py:1016-1057)
with the seen set threaded explicitly (the source initialises it empty):
walk the pages, skip pages whose data is None, and yield each page's
entries deduplicated against all record ids yielded so far.  The model
construction per entry is kept as the entry itself, which carries the
record id. -/
def records_iterator_from_page_iterator : List Page → List String → List DataEntry
  | [], _ => []
  | p :: ps, seen =>
    match p.data with
    | none => records_iterator_from_page_iterator ps seen
    | some entries =>
      let (ys, seen2) := dedup_entries entries seen
      ys ++ records_iterator_from_page_iterator ps seen2

/-- orm.portal_model_iterator_from_portal_data (orm.py:1525-1547): yield
the portal records of one portal data list; when an already-seen set is
supplied (the paginated portal path), drop records whose id is in it and
record yielded ids, and when it is None (the prefetch path) yield every
record unconditionally.  Returns the yielded records and the updated
optional seen set. -/
def portal_model_iterator_from_portal_data :
    List PortalDataValue → Option (List String) →
    List PortalDataValue × Option (List String)
  | [], seen => ([], seen)
  | v :: vs, none =>
    let (ys, seen2) := portal_model_iterator_from_portal_data vs none
    (v :: ys, seen2)
  | v :: vs, some seen =>
    if v.record_id ∈ seen then portal_model_iterator_from_portal_data vs (some seen)
    else
      let (ys, seen2) := portal_model_iterator_from_portal_data vs (some (v.record_id :: seen))
      (v :: ys, seen2)

/-- orm.PortalManager.portals_record_from_portal_page_iterator
(orm.py:342-364) with the seen set threaded explicitly (the source
initialises it empty): each portal page contributes the portal data list of
its single parent record, deduplicated through
portal_model_iterator_from_portal_data with the shared seen set. -/
def portals_record_from_portal_page_iterator :
    List (List PortalDataValue) → List String → List PortalDataValue
  | [], _ => []
  | pg :: pgs, seen =>
    match portal_model_iterator_from_portal_data pg (some seen) with
    | (ys, some seen2) => ys ++ portals_record_from_portal_page_iterator pgs seen2
    | (ys, none) => ys ++ portals_record_from_portal_page_iterator pgs seen

/-- Specification-side description of first-occurrence deduplication, in
the claim's words: an id already yielded (or in the initial seen set) is
dropped, a new id is yielded and remembered.  Used only to compare the
source-derived iterators against. -/
def spec_first_occurrences : List String → List String → List String
  | [], _ => []
  | x :: xs, seen =>
    if x ∈ seen then spec_first_occurrences xs seen
    else x :: spec_first_occurrences xs (x :: seen)

/-- All record ids a page list carries, in order, duplicates included. -/
def page_record_ids (pages : List Page) : List String :=
  pages.flatMap (fun p => (p.data.getD []).map (fun e => e.record_id))

/-! ## The lazy result cache (fmdata/cache_iterator.py, not under src/) -/

/-- Modelled from the spec: the LazyResultCache / CacheIterator component
(src/fmdata/cache_iterator.py is not included under src/; only its test
suite is).  cached_values is the materialized prefix, source the not yet
consumed suffix of the single-pass input iterator, cache_complete the
completion flag. -/
structure CacheIterator (α : Type) where
  cached_values : List α
  source : List α
  cache_complete : Bool
deriving DecidableEq, Repr

/-- Total number of elements the cache will ever expose: materialized
prefix plus unconsumed source. -/
def CacheIterator.total {α : Type} (c : CacheIterator α) : Nat :=
  c.cached_values.length + c.source.length

/-- Modelled from the spec: the remainder of an iteration whose cursor
stands at position pos — replay the cached element at pos while the cached
prefix covers the position (the source is not touched for indices at or
below the high-water mark), then pull each further element from the source,
appending it to the cache, and mark the cache complete when the source is
exhausted.  Returns the yielded sequence, the final cache, and the total
number of source elements consumed. -/
def CacheIterator.iterate_from {α : Type} (c : CacheIterator α) (pos : Nat) :
    List α × CacheIterator α × Nat :=
  match h : c.cached_values[pos]? with
  | some x =>
    let (ys, c3, n) := c.iterate_from (pos + 1)
    (x :: ys, c3, n)
  | none =>
    match hs : c.source with
    | [] => ([], { c with cache_complete := true }, 0)
    | x :: rest =>
      let (ys, c3, n) :=
        CacheIterator.iterate_from
          ⟨c.cached_values ++ [x], rest, c.cache_complete⟩ (pos + 1)
      (x :: ys, c3, 1 + n)
  termination_by c.source.length + (c.cached_values.length - pos)
  decreasing_by
  · have hlt : pos < c.cached_values.length := by
      by_contra hge
      push_neg at hge
      rw [List.getElem?_eq_none hge] at h
      exact Option.noConfusion h
    omega
  · simp only [hs, List.length_append, List.length_cons, List.length_nil]
    omega

/-- Modelled from the spec: Iterate() — a fresh cursor over the cache,
starting at position 0. -/
def CacheIterator.iterate {α : Type} (c : CacheIterator α) :
    List α × CacheIterator α × Nat :=
  c.iterate_from 0

/-- Modelled from the spec: pull elements from the source until index i is
in the materialized prefix or the source is exhausted (full exhaustion also
marks the cache complete). -/
def CacheIterator.pull_up_to {α : Type} (c : CacheIterator α) (i : Nat) :
    CacheIterator α :=
  if i < c.cached_values.length then c
  else
    match hs : c.source with
    | [] => { c with cache_complete := true }
    | x :: rest =>
      CacheIterator.pull_up_to ⟨c.cached_values ++ [x], rest, c.cache_complete⟩ i
  termination_by c.source.length
  decreasing_by
    simp only [hs, List.length_cons]
    omega

/-- Modelled from the spec: force full materialization (Len() and negative
index resolution drain the source to completion). -/
def CacheIterator.drain_all {α : Type} (c : CacheIterator α) : CacheIterator α :=
  c.pull_up_to c.total

/-- Modelled from the spec: Get(i) / __getitem__ with an integer index.  A
negative index first forces full materialization and then offsets from the
end; a non-negative index pulls only until the index is available.  The
element is None exactly when the index is out of range (IndexError). -/
def CacheIterator.get_item {α : Type} (c : CacheIterator α) (i : Int) :
    Option α × CacheIterator α :=
  if i < 0 then
    let c2 := c.drain_all
    let n : Int := c2.cached_values.length
    (if n + i < 0 then none else c2.cached_values[(n + i).toNat]?, c2)
  else
    let c2 := c.pull_up_to i.toNat
    (c2.cached_values[i.toNat]?, c2)

/-! ## Concurrent login (fmclient.FMClient.safe_login_if_not under
_session_lock), modelled as an interleaving of two threads -/

deriving instance DecidableEq for Except

/-- Program counter of one thread executing safe_login_if_not
(fmclient.py:133-143).  The unlocked outer read of _session_invalid, the
lock acquisition, then — with the lock held — the inner re-check, the
too-fast guard, the login network call, and the release that also delivers
the call's outcome. -/
inductive TPC
  | outerCheck
  | acquireLock
  | innerCheck
  | guardCheck
  | doLogin
  | releasing (res : Except SessionErr Unit)
  | finished (res : Except SessionErr Unit)
deriving DecidableEq, Repr

/-- Global configuration of the two-thread execution: shared session state,
the holder of _session_lock (none when free), both program counters, and
the number of provider login network calls issued so far. -/
structure ConcConfig where
  session : SessionState
  lockHeld : Option Bool
  pcA : TPC
  pcB : TPC
  loginCalls : Nat
deriving DecidableEq, Repr

/-- Program counter of the thread named by t. -/
def pcOf (c : ConcConfig) (t : Bool) : TPC :=
  if t then c.pcA else c.pcB

/-- Replace the program counter of the thread named by t. -/
def setPc (c : ConcConfig) (t : Bool) (p : TPC) : ConcConfig :=
  if t then { c with pcA := p } else { c with pcB := p }

/-- One atomic step of thread t running safe_login_if_not
(exception_if_too_fast left at its default True), against client
configuration cfg at time now with provider outcome.  A blocked or finished
thread leaves the configuration unchanged. -/
def threadStep (cfg : ClientConfig) (outcome : Option String) (now : Nat)
    (c : ConcConfig) (t : Bool) : ConcConfig :=
  match pcOf c t with
  | TPC.outerCheck =>
    if c.session.session_invalid then setPc c t TPC.acquireLock
    else setPc c t (TPC.finished (Except.ok ()))
  | TPC.acquireLock =>
    match c.lockHeld with
    | none => setPc { c with lockHeld := some t } t TPC.innerCheck
    | some _ => c
  | TPC.innerCheck =>
    if c.session.session_invalid then setPc c t TPC.guardCheck
    else setPc c t (TPC.releasing (Except.ok ()))
  | TPC.guardCheck =>
    if _raise_exception_if_too_fast cfg c.session now then
      setPc c t (TPC.releasing (Except.error SessionErr.tooFast))
    else setPc c t TPC.doLogin
  | TPC.doLogin =>
    let (r, s2) := login outcome now
    setPc { c with session := s2, loginCalls := c.loginCalls + 1 } t (TPC.releasing r)
  | TPC.releasing res =>
    setPc { c with lockHeld := none } t (TPC.finished res)
  | TPC.finished _ => c

/-- Run a schedule: at each scheduler decision the named thread takes one
atomic step. -/
def runSchedule (cfg : ClientConfig) (outcome : Option String) (now : Nat)
    (c : ConcConfig) : List Bool → ConcConfig
  | [] => c
  | t :: ts => runSchedule cfg outcome now (threadStep cfg outcome now c t) ts

/-- The initial configuration of two concurrent safe_login_if_not calls on
a fresh client: no token, session invalid, no recorded login attempt, lock
free, both threads before their outer check, no login calls yet. -/
def initConc : ConcConfig :=
  { session := { token := none, session_invalid := true, last_login_retry := none },
    lockHeld := none,
    pcA := TPC.outerCheck,
    pcB := TPC.outerCheck,
    loginCalls := 0 }

/-- Both threads have returned from safe_login_if_not. -/
def bothFinished (c : ConcConfig) : Prop :=
  (∃ r, c.pcA = TPC.finished r) ∧ (∃ r, c.pcB = TPC.finished r)

/-! ## Helper lemmas -/

/-- A result without an invalid-token error has no head in its filtered
error list. -/
lemma no_invalid_token_head {r : FMResult}
    (h : has_invalid_token_error r = false) :
    (get_errors r [INVALID_FILEMAKER_DATA_API_TOKEN]).head? = none := by
  rcases hh : (get_errors r [INVALID_FILEMAKER_DATA_API_TOKEN]).head? with _ | m
  · rfl
  · simp only [has_invalid_token_error, hh, Option.isSome_some] at h
    exact absurd h (by decide)

/-- The too-fast guard reads only the recorded last login attempt, so
marking the session invalid does not change its verdict. -/
lemma too_fast_mark_invalid (cfg : ClientConfig) (s : SessionState) (now : Nat) :
    _raise_exception_if_too_fast cfg { s with session_invalid := true } now
      = _raise_exception_if_too_fast cfg s now := rfl

/-! ## Claim theorems -/

/-- C3: composing two pre-execution slices intersects the windows: the new
stop is min(existing_stop, existing_start+stop) (or existing_start+stop
when no stop was set), the new start is min(new_stop, existing_start+start)
when a stop is set and existing_start+start otherwise; slice(0,10) then
slice(2,5) gives the window [2,5). -/
theorem C3_window_composition (w : SliceWindow) (a b : Nat) :
    (_set_new_slice w (some a) (some b)).stop
        = some (w.stop.elim (w.start + b) (fun e => min e (w.start + b)))
    ∧ (_set_new_slice w (some a) (some b)).start
        = min (w.stop.elim (w.start + b) (fun e => min e (w.start + b))) (w.start + a)
    ∧ (w.stop = none →
        (_set_new_slice w (some a) none).start = w.start + a
        ∧ (_set_new_slice w (some a) none).stop = none)
    ∧ _set_new_slice (_set_new_slice ⟨0, none⟩ (some 0) (some 10)) (some 2) (some 5)
        = ⟨2, some 5⟩ := by
  refine ⟨?_, ?_, ?_, by decide⟩
  · cases h : w.stop <;> simp [_set_new_slice, h]
  · cases h : w.stop <;> simp [_set_new_slice, h]
  · intro h
    constructor <;> simp [_set_new_slice, h]

/-- C3 witness: the no-stop composition branch at a concrete window. -/
theorem C3_window_composition_witness :
    (_set_new_slice ⟨3, none⟩ (some 2) none).start = 3 + 2
    ∧ (_set_new_slice ⟨3, none⟩ (some 2) none).stop = none :=
  (C3_window_composition ⟨3, none⟩ 2 0).2.2.1 rfl

/-- C10: indexing a manager with a slice whose set stop is at most its
(defaulted) start, or with any negative slice bound or negative integer
index, raises ValueError during validation, before any fetch. -/
theorem C10_getitem_validation (w : SliceWindow) :
    (∀ (a b : Int) (stp : Option Int), 0 ≤ a → 0 ≤ b → b ≤ a →
        getitem_slice w ⟨some a, some b, stp⟩
          = Except.error (ORMError.valueError "Stop index must be greater than start index."))
    ∧ (∀ (b : Int) (stp : Option Int), 0 ≤ b → b ≤ 0 →
        getitem_slice w ⟨none, some b, stp⟩
          = Except.error (ORMError.valueError "Stop index must be greater than start index."))
    ∧ (∀ (sta : Option Int) (b : Int) (stp : Option Int), b < 0 →
        getitem_slice w ⟨sta, some b, stp⟩
          = Except.error (ORMError.valueError "Negative indexing is not supported."))
    ∧ (∀ (a : Int) (stb : Option Int) (stp : Option Int), a < 0 →
        getitem_slice w ⟨some a, stb, stp⟩
          = Except.error (ORMError.valueError "Negative indexing is not supported."))
    ∧ (∀ k : Int, k < 0 →
        getitem_int w k
          = Except.error (ORMError.valueError "Negative indexing is not supported.")) := by
  refine ⟨?_, ?_, ?_, ?_, ?_⟩
  · intro a b stp ha hb hba
    simp [getitem_slice, not_lt.mpr ha, not_lt.mpr hb, hba]
  · intro b stp hb hb0
    simp [getitem_slice, not_lt.mpr hb, hb0]
  · intro sta b stp hb
    cases sta <;> simp [getitem_slice, hb]
  · intro a stb stp ha
    simp [getitem_slice, ha]
  · intro k hk
    simp [getitem_int, hk]

/-- C10 witness: the empty slice qs[4:4], the negative slice bound, and a
negative integer index at concrete inputs. -/
theorem C10_getitem_validation_witness :
    getitem_slice ⟨0, none⟩ ⟨some 4, some 4, none⟩
        = Except.error (ORMError.valueError "Stop index must be greater than start index.")
    ∧ getitem_slice ⟨0, none⟩ ⟨some 1, some (-2), none⟩
        = Except.error (ORMError.valueError "Negative indexing is not supported.")
    ∧ getitem_int ⟨0, none⟩ (-1)
        = Except.error (ORMError.valueError "Negative indexing is not supported.") :=
  ⟨(C10_getitem_validation ⟨0, none⟩).1 4 4 none (by decide) (by decide) (by decide),
   (C10_getitem_validation ⟨0, none⟩).2.2.1 (some 1) (-2) none (by decide),
   (C10_getitem_validation ⟨0, none⟩).2.2.2.2 (-1) (by decide)⟩

/-- C6 counterexample: logging out of an active session leaves the client
state untouched — the token is still stored and the session still flagged
valid, contradicting the claimed transition to NoSession with a cleared
token. -/
theorem C6_counterexample_logout_keeps_state :
    (logout ⟨some "tok", false, none⟩).2.1 = ⟨some "tok", false, none⟩
    ∧ (logout ⟨some "tok", false, none⟩).2.1.token ≠ none
    ∧ (logout ⟨some "tok", false, none⟩).2.1.session_invalid = false := by
  refine ⟨rfl, by decide, rfl⟩

/-- C6 amended: logout on an active session issues exactly one network call
and returns its result while leaving the stored token and the
session-validity flag unchanged; logout with no active session returns
None, performs no network call, and never triggers a login. -/
theorem C6_logout_behavior (s : SessionState) :
    (s.session_invalid = false → logout s = (some (), s, 1))
    ∧ (s.session_invalid = true → logout s = (none, s, 0)) := by
  constructor <;> intro h <;> simp [logout, h]

/-- C6 witness: both logout branches at concrete states. -/
theorem C6_logout_behavior_witness :
    logout ⟨some "t", false, none⟩ = (some (), ⟨some "t", false, none⟩, 1)
    ∧ logout ⟨none, true, none⟩ = (none, ⟨none, true, none⟩, 0) :=
  ⟨(C6_logout_behavior ⟨some "t", false, none⟩).1 rfl,
   (C6_logout_behavior ⟨none, true, none⟩).2 rfl⟩

/-- C5 counterexample: with no active session and a login attempt recorded
within the cool-down, the auto-retry wrapper raises the retried-too-fast
error and makes no login attempt — the guard is active, not bypassed. -/
theorem C5_counterexample_guard_not_bypassed :
    (_auto_manage_session ⟨some 1, true⟩ (some "tok") (fun _ => ⟨[], 0⟩)
        ⟨none, true, some 100⟩ 100).result = Except.error SessionErr.tooFast
    ∧ (_auto_manage_session ⟨some 1, true⟩ (some "tok") (fun _ => ⟨[], 0⟩)
        ⟨none, true, some 100⟩ 100).loginCalls = 0 :=
  ⟨rfl, rfl⟩

/-- C5 amended: when the wrapper ensures a session before the operation,
the too-fast guard stays active: with no active session, if the last login
attempt is within the cool-down the wrapper raises the retried-too-fast
error after zero operation invocations and zero login attempts; only when
the guard permits is a login attempted. -/
theorem C5_guard_active (cfg : ClientConfig) (outcome : Option String)
    (op : Nat → FMResult) (s : SessionState) (now : Nat)
    (hauto : cfg.auto_manage_session = true)
    (hinv : s.session_invalid = true) :
    (_raise_exception_if_too_fast cfg s now = true →
        _auto_manage_session cfg outcome op s now
          = ⟨Except.error SessionErr.tooFast, s, 0, 0⟩)
    ∧ (_raise_exception_if_too_fast cfg s now = false →
        1 ≤ (_auto_manage_session cfg outcome op s now).loginCalls) := by
  constructor
  · intro hfire
    have hstep : safe_login_if_not cfg outcome true s now
        = (Except.error SessionErr.tooFast, s, 0) := by
      simp [safe_login_if_not, hinv, hfire]
    simp [_auto_manage_session, hauto, hstep]
  · intro hfire
    rcases outcome with _ | tok
    · have hstep : safe_login_if_not cfg none true s now
          = (Except.error SessionErr.loginFailed,
             ⟨none, true, some now⟩, 1) := by
        simp [safe_login_if_not, hinv, hfire, login]
      simp [_auto_manage_session, hauto, hstep]
    · have hstep : safe_login_if_not cfg (some tok) true s now
          = (Except.ok (), ⟨some tok, false, some now⟩, 1) := by
        simp [safe_login_if_not, hinv, hfire, login]
      rcases h0 : (get_errors (op 0) [INVALID_FILEMAKER_DATA_API_TOKEN]).head? with _ | m0
      · simp [_auto_manage_session, hauto, hstep, h0]
      · rcases h2 : safe_login_if_not cfg (some tok) true
            { token := some tok, session_invalid := true, last_login_retry := some now } now
          with ⟨r2, s3, n2⟩
        rcases r2 with e2 | u2
        · simp [_auto_manage_session, hauto, hstep, h0, h2]
        · rcases h1 : (get_errors (op 1) [INVALID_FILEMAKER_DATA_API_TOKEN]).head? with _ | m1 <;>
            simp [_auto_manage_session, hauto, hstep, h0, h2, h1]

/-- C5 witness: the guard firing and the guard passing, at concrete
inputs. -/
theorem C5_guard_active_witness :
    _auto_manage_session ⟨some 1, true⟩ (some "tok") (fun _ => ⟨[], 0⟩)
        ⟨none, true, some 100⟩ 100
      = ⟨Except.error SessionErr.tooFast, ⟨none, true, some 100⟩, 0, 0⟩
    ∧ 1 ≤ (_auto_manage_session ⟨some 1, true⟩ (some "tok") (fun _ => ⟨[], 0⟩)
        ⟨none, true, some 100⟩ 200).loginCalls :=
  ⟨(C5_guard_active ⟨some 1, true⟩ (some "tok") (fun _ => ⟨[], 0⟩)
      ⟨none, true, some 100⟩ 100 rfl rfl).1 (by decide),
   (C5_guard_active ⟨some 1, true⟩ (some "tok") (fun _ => ⟨[], 0⟩)
      ⟨none, true, some 100⟩ 200 rfl rfl).2 (by decide)⟩

/-- C1: under the auto-managed-session retry, with an active session, a
permitting guard and a succeeding login provider: an invalid-token first
result followed by a clean second result gives exactly one re-login, two
operation invocations and the second result; invalid-token on both results
raises a terminal session error after exactly two invocations; a first
result without invalid-token is returned unchanged with one invocation and
no re-login. -/
theorem C1_auto_retry_wrapper (cfg : ClientConfig) (tok : String)
    (op : Nat → FMResult) (s : SessionState) (now : Nat)
    (hauto : cfg.auto_manage_session = true)
    (hactive : s.session_invalid = false)
    (hguard : _raise_exception_if_too_fast cfg s now = false) :
    (has_invalid_token_error (op 0) = true → has_invalid_token_error (op 1) = false →
        _auto_manage_session cfg (some tok) op s now
          = ⟨Except.ok (op 1), ⟨some tok, false, some now⟩, 2, 1⟩)
    ∧ (has_invalid_token_error (op 0) = true → has_invalid_token_error (op 1) = true →
        (_auto_manage_session cfg (some tok) op s now).opCalls = 2
        ∧ (_auto_manage_session cfg (some tok) op s now).loginCalls = 1
        ∧ ∃ m, m.code = INVALID_FILEMAKER_DATA_API_TOKEN
            ∧ (_auto_manage_session cfg (some tok) op s now).result
                = Except.error (SessionErr.fmErrorFromMessage m))
    ∧ (has_invalid_token_error (op 0) = false →
        _auto_manage_session cfg (some tok) op s now = ⟨Except.ok (op 0), s, 1, 0⟩) := by
  have hstep1 : safe_login_if_not cfg (some tok) true s now = (Except.ok (), s, 0) := by
    simp [safe_login_if_not, hactive]
  have hguard2 : _raise_exception_if_too_fast cfg { s with session_invalid := true } now
      = false := by
    rw [too_fast_mark_invalid]; exact hguard
  have hstep2 : safe_login_if_not cfg (some tok) true { s with session_invalid := true } now
      = (Except.ok (), ⟨some tok, false, some now⟩, 1) := by
    simp [safe_login_if_not, hguard2, login]
  refine ⟨?_, ?_, ?_⟩
  · intro h0 h1
    obtain ⟨m0, hm0⟩ := Option.isSome_iff_exists.mp h0
    have h1n := no_invalid_token_head h1
    simp [_auto_manage_session, hauto, hstep1, hm0, hstep2, h1n]
  · intro h0 h1
    obtain ⟨m0, hm0⟩ := Option.isSome_iff_exists.mp h0
    obtain ⟨m1, hm1⟩ := Option.isSome_iff_exists.mp h1
    have hmem : m1 ∈ get_errors (op 1) [INVALID_FILEMAKER_DATA_API_TOKEN] :=
      List.mem_of_mem_head? hm1
    have hcode : m1.code = INVALID_FILEMAKER_DATA_API_TOKEN := by
      have := List.of_mem_filter hmem
      simpa using this
    refine ⟨?_, ?_, ⟨m1, hcode, ?_⟩⟩ <;>
      simp [_auto_manage_session, hauto, hstep1, hm0, hstep2, hm1]
  · intro h0
    have h0n := no_invalid_token_head h0
    simp [_auto_manage_session, hauto, hstep1, h0n]

/-- C1 witness: all three scenarios at concrete inputs — payloads 7, 8
distinguish the two invocations, code 952 is the invalid-token code. -/
theorem C1_auto_retry_wrapper_witness :
    _auto_manage_session ⟨some 1, true⟩ (some "new")
        (fun n => if n == 0 then ⟨[⟨952, "bad token"⟩], 7⟩ else ⟨[], 8⟩)
        ⟨some "old", false, some 5⟩ 100
      = ⟨Except.ok ⟨[], 8⟩, ⟨some "new", false, some 100⟩, 2, 1⟩
    ∧ (_auto_manage_session ⟨some 1, true⟩ (some "new")
        (fun _ => ⟨[⟨952, "bad token"⟩], 7⟩) ⟨some "old", false, some 5⟩ 100).opCalls = 2
    ∧ _auto_manage_session ⟨some 1, true⟩ (some "new")
        (fun _ => ⟨[], 9⟩) ⟨some "old", false, some 5⟩ 100
      = ⟨Except.ok ⟨[], 9⟩, ⟨some "old", false, some 5⟩, 1, 0⟩ :=
  ⟨(C1_auto_retry_wrapper ⟨some 1, true⟩ "new"
      (fun n => if n == 0 then ⟨[⟨952, "bad token"⟩], 7⟩ else ⟨[], 8⟩)
      ⟨some "old", false, some 5⟩ 100 rfl rfl (by decide)).1 (by decide) (by decide),
   ((C1_auto_retry_wrapper ⟨some 1, true⟩ "new"
      (fun _ => ⟨[⟨952, "bad token"⟩], 7⟩)
      ⟨some "old", false, some 5⟩ 100 rfl rfl (by decide)).2.1 (by decide) (by decide)).1,
   (C1_auto_retry_wrapper ⟨some 1, true⟩ "new"
      (fun _ => ⟨[], 9⟩)
      ⟨some "old", false, some 5⟩ 100 rfl rfl (by decide)).2.2 (by decide)⟩

/-- C4: on a sliced manager every criteria/sort/prefetch mutator — find,
omit, order_by, chunking, prefetch_portal, response_layout and the three
script setters — fails with the slice TypeError before anything else
happens, while on an unsliced manager each returns a new builder value
(given arguments that pass their own validation). -/
theorem C4_mutators_after_slice (m : ManagerState) (catalog pcat : FieldCatalog)
    (kwargs : List (String × KwargValue)) (fieldNames : List String)
    (size : Nat) (portal layout name : String) (param : Option String) :
    (_is_sliced m.window = true →
        (∀ e, e = ORMError.typeError "Cannot filter a query once a slice has been taken." →
          find m catalog kwargs = Except.error e
          ∧ omit_find m catalog kwargs = Except.error e
          ∧ order_by m catalog fieldNames = Except.error e
          ∧ chunking m size = Except.error e
          ∧ prefetch_portal m pcat portal (some 10) (some 1) = Except.error e
          ∧ response_layout m layout = Except.error e
          ∧ prerequest_script m name param = Except.error e
          ∧ presort_script m name param = Except.error e
          ∧ after_script m name param = Except.error e))
    ∧ (_is_sliced m.window = false →
        (∀ cs, _process_find_omit_kwargs catalog kwargs = Except.ok cs →
            find m catalog kwargs
              = Except.ok { m with search_criteria := m.search_criteria ++ [⟨cs, false⟩] }
            ∧ omit_find m catalog kwargs
              = Except.ok { m with search_criteria := m.search_criteria ++ [⟨cs, true⟩] })
        ∧ (∀ sorts, fieldNames.mapM (resolve_sort_field catalog) = Except.ok sorts →
            order_by m catalog fieldNames = Except.ok { m with sort := m.sort ++ sorts })
        ∧ chunking m size = Except.ok { m with chunk_size := some size }
        ∧ (∀ (l o : Int) fm, 0 ≤ l → 1 ≤ o → List.lookup portal pcat = some fm →
            prefetch_portal m pcat portal (some l) (some o)
              = Except.ok { m with portals := dictInsert m.portals fm ⟨o, l⟩ })
        ∧ response_layout m layout = Except.ok { m with response_layout := some layout }
        ∧ prerequest_script m name param
            = Except.ok { m with scripts := dictInsert m.scripts "prerequest" ⟨name, param⟩ }
        ∧ presort_script m name param
            = Except.ok { m with scripts := dictInsert m.scripts "presort" ⟨name, param⟩ }
        ∧ after_script m name param
            = Except.ok { m with scripts := dictInsert m.scripts "after" ⟨name, param⟩ }) := by
  constructor
  · intro hs e he
    subst he
    have ha : _assert_not_sliced m.window
        = Except.error (ORMError.typeError "Cannot filter a query once a slice has been taken.") := by
      simp [_assert_not_sliced, hs]
    refine ⟨?_, ?_, ?_, ?_, ?_, ?_, ?_, ?_, ?_⟩ <;>
      simp [find, omit_find, order_by, chunking, prefetch_portal, response_layout,
        prerequest_script, presort_script, after_script, ha]
  · intro hs
    have ha : _assert_not_sliced m.window = Except.ok () := by
      simp [_assert_not_sliced, hs]
    refine ⟨?_, ?_, ?_, ?_, ?_, ?_, ?_, ?_⟩
    · intro cs hcs
      constructor <;> simp [find, omit_find, ha, hcs]
    · intro sorts hsorts
      simp only [order_by, ha]
      rw [hsorts]
    · simp [chunking, ha]
    · intro l o fm hl ho hfm
      simp [prefetch_portal, ha, hfm, not_lt.mpr hl, not_lt.mpr ho,
        Option.isNone_some]
    · simp [response_layout, ha]
    · simp [prerequest_script, ha]
    · simp [presort_script, ha]
    · simp [after_script, ha]

/-- C4 witness: a sliced manager rejecting find, and an unsliced manager
accepting find and prefetch_portal, at concrete inputs. -/
theorem C4_mutators_after_slice_witness :
    find ⟨[], [], [], none, [], ⟨2, some 5⟩, none⟩ [("age", "Age")] [("age", KwargValue.val "3")]
      = Except.error (ORMError.typeError "Cannot filter a query once a slice has been taken.")
    ∧ find ⟨[], [], [], none, [], ⟨0, none⟩, none⟩ [("age", "Age")] [("age", KwargValue.val "3")]
      = Except.ok ⟨[⟨[("Age", "==3")], false⟩], [], [], none, [], ⟨0, none⟩, none⟩
    ∧ prefetch_portal ⟨[], [], [], none, [], ⟨0, none⟩, none⟩ [("kids", "Kids")] "kids"
        (some 10) (some 1)
      = Except.ok ⟨[], [], [], none, [("Kids", ⟨1, 10⟩)], ⟨0, none⟩, none⟩ :=
  ⟨(((C4_mutators_after_slice ⟨[], [], [], none, [], ⟨2, some 5⟩, none⟩ [("age", "Age")]
        [("kids", "Kids")] [("age", KwargValue.val "3")] [] 1 "kids" "l" "n" none).1 rfl)
      _ rfl).1,
   (((C4_mutators_after_slice ⟨[], [], [], none, [], ⟨0, none⟩, none⟩ [("age", "Age")]
        [("kids", "Kids")] [("age", KwargValue.val "3")] [] 1 "kids" "l" "n" none).2 rfl).1
      [("Age", "==3")] (by decide)).1,
   ((((C4_mutators_after_slice ⟨[], [], [], none, [], ⟨0, none⟩, none⟩ [("age", "Age")]
        [("kids", "Kids")] [("age", KwargValue.val "3")] [] 1 "kids" "l" "n" none).2
      rfl).2.2.2.1) 10 1 "Kids" (by decide) (by decide) (by decide))⟩

/-- The seen set after scanning a list of ids with first-occurrence
deduplication. -/
def seen_after : List String → List String → List String
  | [], seen => seen
  | x :: xs, seen =>
    if x ∈ seen then seen_after xs seen else seen_after xs (x :: seen)

/-- Characterization of dedup_entries: the yielded record ids are the first
occurrences not already seen, the final seen set is seen_after of the ids,
and the yielded entries form a sublist of the input (records are dropped,
never reordered or invented). -/
lemma dedup_entries_spec : ∀ (es : List DataEntry) (seen : List String),
    ((dedup_entries es seen).1.map (fun e => e.record_id)
        = spec_first_occurrences (es.map (fun e => e.record_id)) seen)
    ∧ (dedup_entries es seen).2 = seen_after (es.map (fun e => e.record_id)) seen
    ∧ ((dedup_entries es seen).1).Sublist es
  | [], seen => by
    refine ⟨rfl, rfl, List.Sublist.refl _⟩
  | e :: es, seen => by
    by_cases h : e.record_id ∈ seen
    · obtain ⟨ih1, ih2, ih3⟩ := dedup_entries_spec es seen
      refine ⟨?_, ?_, ?_⟩
      · simp [dedup_entries, spec_first_occurrences, h, ih1]
      · simp [dedup_entries, seen_after, h, ih2]
      · simp only [dedup_entries, if_pos h]
        exact ih3.cons _
    · obtain ⟨ih1, ih2, ih3⟩ := dedup_entries_spec es (e.record_id :: seen)
      rcases hde : dedup_entries es (e.record_id :: seen) with ⟨ys, seen2⟩
      rw [hde] at ih1 ih2 ih3
      refine ⟨?_, ?_, ?_⟩
      · simp [dedup_entries, spec_first_occurrences, h, hde, ih1]
      · simp [dedup_entries, seen_after, h, hde, ih2]
      · simp only [dedup_entries, if_neg h, hde]
        exact ih3.cons₂ _

/-- First-occurrence deduplication distributes over append, threading the
seen set. -/
lemma spec_first_occurrences_append : ∀ (xs ys seen : List String),
    spec_first_occurrences (xs ++ ys) seen
      = spec_first_occurrences xs seen
          ++ spec_first_occurrences ys (seen_after xs seen)
  | [], ys, seen => rfl
  | x :: xs, ys, seen => by
    by_cases h : x ∈ seen
    · simp [spec_first_occurrences, seen_after, h,
        spec_first_occurrences_append xs ys seen]
    · simp [spec_first_occurrences, seen_after, h,
        spec_first_occurrences_append xs ys (x :: seen)]

/-- First-occurrence deduplication yields pairwise distinct ids, all of
them outside the initial seen set. -/
lemma spec_first_occurrences_nodup : ∀ (xs seen : List String),
    (spec_first_occurrences xs seen).Nodup
    ∧ ∀ x ∈ spec_first_occurrences xs seen, x ∉ seen
  | [], seen => by simp [spec_first_occurrences]
  | x :: xs, seen => by
    by_cases h : x ∈ seen
    · obtain ⟨ih1, ih2⟩ := spec_first_occurrences_nodup xs seen
      exact ⟨by simpa [spec_first_occurrences, h] using ih1,
             by simpa [spec_first_occurrences, h] using ih2⟩
    · obtain ⟨ih1, ih2⟩ := spec_first_occurrences_nodup xs (x :: seen)
      refine ⟨?_, ?_⟩
      · simp only [spec_first_occurrences, if_neg h, List.nodup_cons]
        refine ⟨fun hx => ?_, ih1⟩
        exact (ih2 x hx) (List.mem_cons_self x seen)
      · intro y hy
        simp only [spec_first_occurrences, if_neg h, List.mem_cons] at hy
        rcases hy with rfl | hy
        · exact h
        · intro hseen
          exact (ih2 y hy) (List.mem_cons_of_mem x hseen)

/-- The ids of the deduplicated record stream are exactly the first
occurrences of the concatenated page ids. -/
lemma records_iterator_ids : ∀ (pages : List Page) (seen : List String),
    (records_iterator_from_page_iterator pages seen).map (fun e => e.record_id)
      = spec_first_occurrences (page_record_ids pages) seen
  | [], seen => rfl
  | p :: ps, seen => by
    rcases hp : p.data with _ | entries
    · simp [records_iterator_from_page_iterator, page_record_ids, hp,
        records_iterator_ids ps seen]
    · obtain ⟨h1, h2, -⟩ := dedup_entries_spec entries seen
      rcases hde : dedup_entries entries seen with ⟨ys, seen2⟩
      rw [hde] at h1 h2
      dsimp only at h1 h2
      simp only [records_iterator_from_page_iterator, hp, hde, List.map_append,
        page_record_ids, List.flatMap_cons, Option.getD_some,
        spec_first_occurrences_append]
      rw [h1, records_iterator_ids ps seen2, h2]
      rfl

/-- The deduplicated record stream is a sublist of the concatenation of the
pages' records. -/
lemma records_iterator_sublist : ∀ (pages : List Page) (seen : List String),
    (records_iterator_from_page_iterator pages seen).Sublist
      (pages.flatMap (fun p => p.data.getD []))
  | [], seen => by simp [records_iterator_from_page_iterator]
  | p :: ps, seen => by
    rcases hp : p.data with _ | entries
    · simp only [records_iterator_from_page_iterator, hp, List.flatMap_cons,
        Option.getD_none, List.nil_append]
      exact records_iterator_sublist ps seen
    · obtain ⟨-, -, h3⟩ := dedup_entries_spec entries seen
      rcases hde : dedup_entries entries seen with ⟨ys, seen2⟩
      rw [hde] at h3
      simp only [records_iterator_from_page_iterator, hp, hde,
        List.flatMap_cons, Option.getD_some]
      exact h3.append (records_iterator_sublist ps seen2)

/-- Characterization of the deduplicating portal iterator when a seen set
is supplied: ids are first occurrences, the seen set is threaded. -/
lemma portal_iterator_spec : ∀ (vs : List PortalDataValue) (seen : List String),
    ((portal_model_iterator_from_portal_data vs (some seen)).1.map
        (fun v => v.record_id)
      = spec_first_occurrences (vs.map (fun v => v.record_id)) seen)
    ∧ (portal_model_iterator_from_portal_data vs (some seen)).2
        = some (seen_after (vs.map (fun v => v.record_id)) seen)
  | [], seen => ⟨rfl, rfl⟩
  | v :: vs, seen => by
    by_cases h : v.record_id ∈ seen
    · obtain ⟨ih1, ih2⟩ := portal_iterator_spec vs seen
      exact ⟨by simpa [portal_model_iterator_from_portal_data,
          spec_first_occurrences, h] using ih1,
        by simpa [portal_model_iterator_from_portal_data, seen_after, h] using ih2⟩
    · obtain ⟨ih1, ih2⟩ := portal_iterator_spec vs (v.record_id :: seen)
      rcases hpi : portal_model_iterator_from_portal_data vs (some (v.record_id :: seen))
        with ⟨ys, os⟩
      rw [hpi] at ih1 ih2
      refine ⟨?_, ?_⟩
      · simp [portal_model_iterator_from_portal_data, spec_first_occurrences, h,
          hpi, ih1]
      · simp [portal_model_iterator_from_portal_data, seen_after, h, hpi, ih2]

/-- The ids of the deduplicated paginated-portal stream are the first
occurrences of the concatenated portal page ids. -/
lemma portals_record_ids : ∀ (pgs : List (List PortalDataValue)) (seen : List String),
    (portals_record_from_portal_page_iterator pgs seen).map (fun v => v.record_id)
      = spec_first_occurrences
          (pgs.flatMap (fun pg => pg.map (fun v => v.record_id))) seen
  | [], seen => rfl
  | pg :: pgs, seen => by
    obtain ⟨h1, h2⟩ := portal_iterator_spec pg seen
    rcases hpi : portal_model_iterator_from_portal_data pg (some seen) with ⟨ys, os⟩
    rw [hpi] at h1 h2
    dsimp only at h1 h2
    subst h2
    simp only [portals_record_from_portal_page_iterator, hpi, List.map_append,
      List.flatMap_cons, spec_first_occurrences_append]
    rw [h1, portals_record_ids pgs _]

/-- C2: within one query execution both deduplicating streams — the main
record stream over a page sequence and the paginated portal stream — yield
pairwise-distinct record ids; the yielded ids are exactly the first
occurrences of the concatenated page ids (a repeated id is silently
dropped), and yielded records are a sublist of the pages' records. -/
theorem C2_dedup_record_streams (pages : List Page)
    (pgs : List (List PortalDataValue)) :
    ((records_iterator_from_page_iterator pages []).map (fun e => e.record_id)).Nodup
    ∧ (records_iterator_from_page_iterator pages []).map (fun e => e.record_id)
        = spec_first_occurrences (page_record_ids pages) []
    ∧ (records_iterator_from_page_iterator pages []).Sublist
        (pages.flatMap (fun p => p.data.getD []))
    ∧ ((portals_record_from_portal_page_iterator pgs []).map
        (fun v => v.record_id)).Nodup
    ∧ (portals_record_from_portal_page_iterator pgs []).map (fun v => v.record_id)
        = spec_first_occurrences
            (pgs.flatMap (fun pg => pg.map (fun v => v.record_id))) [] := by
  refine ⟨?_, records_iterator_ids pages [], records_iterator_sublist pages [],
    ?_, portals_record_ids pgs []⟩
  · rw [records_iterator_ids pages []]
    exact (spec_first_occurrences_nodup (page_record_ids pages) []).1
  · rw [portals_record_ids pgs []]
    exact (spec_first_occurrences_nodup _ []).1

/-- Draining iteration from the high-water mark: starting at the end of the
cached prefix, iteration yields exactly the remaining source, caches it,
marks completion, and consumes the whole source. -/
lemma iterate_from_drain {α : Type} : ∀ (src cached : List α) (flag : Bool),
    CacheIterator.iterate_from ⟨cached, src, flag⟩ cached.length
      = (src, ⟨cached ++ src, [], true⟩, src.length)
  | [], cached, flag => by
    rw [CacheIterator.iterate_from]
    have hn : cached[cached.length]? = none := List.getElem?_eq_none (le_refl _)
    split
    · rename_i x h
      rw [hn] at h
      exact Option.noConfusion h
    · split
      · simp
      · rename_i hs
        exact absurd hs (by simp)
  | x :: rest, cached, flag => by
    rw [CacheIterator.iterate_from]
    have hn : cached[cached.length]? = none := List.getElem?_eq_none (le_refl _)
    split
    · rename_i y h
      rw [hn] at h
      exact Option.noConfusion h
    · split
      · rename_i hs
        exact absurd hs (by simp)
      · rename_i y rest2 hs
        simp only at hs
        obtain ⟨h1, h2⟩ := List.cons.inj hs
        subst h1
        subst h2
        have ih := iterate_from_drain rest (cached ++ [x]) flag
        have hlen : (cached ++ [x]).length = cached.length + 1 := by simp
        rw [← hlen, ih]
        simp [Nat.add_comm]

/-- Iteration from any cursor position at or below the high-water mark:
the yielded sequence is the cached suffix from that position followed by
the whole source, the final cache is fully materialized and complete, and
exactly the source elements are consumed. -/
lemma iterate_from_spec {α : Type} (c : CacheIterator α) (pos : Nat)
    (hle : pos ≤ c.cached_values.length) :
    c.iterate_from pos
      = (c.cached_values.drop pos ++ c.source,
         ⟨c.cached_values ++ c.source, [], true⟩, c.source.length) := by
  rcases Nat.lt_or_ge pos c.cached_values.length with hlt | hge
  · rw [CacheIterator.iterate_from]
    split
    · rename_i x h
      have hx : c.cached_values[pos] = x := by
        have := List.getElem?_eq_getElem hlt
        rw [this] at h
        exact Option.some.inj h
      have ih := iterate_from_spec c (pos + 1) hlt
      rw [ih]
      have hdrop : c.cached_values.drop pos
          = c.cached_values[pos] :: c.cached_values.drop (pos + 1) :=
        List.drop_eq_getElem_cons hlt
      rw [hdrop, hx]
      rfl
    · rename_i h
      rw [List.getElem?_eq_getElem hlt] at h
      exact Option.noConfusion h
  · have heq : pos = c.cached_values.length := le_antisymm hle hge
    subst heq
    obtain ⟨cached, src, flag⟩ := c
    simp only at *
    rw [iterate_from_drain]
    simp
  termination_by c.cached_values.length - pos

/-- C7: Iterate() on the result cache is restartable — a full iteration
yields the cached prefix followed by the source (consuming exactly the
un-materialized part, whatever was materialized before the call), and a
second full iteration with no clearing in between yields the identical
sequence while consuming the source zero times. -/
theorem C7_iterate_restartable {α : Type} (c : CacheIterator α) :
    c.iterate.1 = c.cached_values ++ c.source
    ∧ c.iterate.2.2 = c.source.length
    ∧ (c.iterate.2.1).iterate.1 = c.iterate.1
    ∧ (c.iterate.2.1).iterate.2.2 = 0 := by
  have h1 : c.iterate
      = (c.cached_values ++ c.source,
         ⟨c.cached_values ++ c.source, [], true⟩, c.source.length) := by
    have := iterate_from_spec c 0 (Nat.zero_le _)
    simpa [CacheIterator.iterate] using this
  have h2 : (CacheIterator.mk (c.cached_values ++ c.source) ([] : List α) true).iterate
      = (c.cached_values ++ c.source,
         ⟨(c.cached_values ++ c.source) ++ [], [], true⟩, 0) := by
    have := iterate_from_spec
      (CacheIterator.mk (c.cached_values ++ c.source) ([] : List α) true) 0 (Nat.zero_le _)
    simpa [CacheIterator.iterate] using this
  rw [h1]
  refine ⟨rfl, rfl, ?_, ?_⟩ <;> simp [h2]

/-- Characterization of pull_up_to: it permutes nothing (cache plus source
is invariant), it materializes at least up to any in-range index, and for
an index at or past the total it fully materializes and marks complete. -/
lemma pull_up_to_parts {α : Type} : ∀ (src cached : List α) (flag : Bool) (i : Nat),
    (((CacheIterator.mk cached src flag).pull_up_to i).cached_values
        ++ ((CacheIterator.mk cached src flag).pull_up_to i).source
      = cached ++ src)
    ∧ (i < cached.length + src.length →
        i < ((CacheIterator.mk cached src flag).pull_up_to i).cached_values.length)
    ∧ (cached.length + src.length ≤ i →
        (CacheIterator.mk cached src flag).pull_up_to i = ⟨cached ++ src, [], true⟩)
  | [], cached, flag, i => by
    rw [CacheIterator.pull_up_to]
    split
    · rename_i hlt
      simp only at hlt
      refine ⟨rfl, fun _ => hlt, fun hge => ?_⟩
      exact absurd hge (by simp only [List.length_nil]; omega)
    · rename_i hnlt
      simp only at hnlt
      split
      · refine ⟨by simp, ?_, fun _ => by simp⟩
        intro hi
        simp only [List.length_nil, Nat.add_zero] at hi
        exact absurd hi hnlt
      · rename_i y rest2 hs
        simp only at hs
        exact List.noConfusion hs
  | x :: rest, cached, flag, i => by
    rw [CacheIterator.pull_up_to]
    split
    · rename_i hlt
      simp only at hlt
      refine ⟨rfl, fun _ => hlt, fun hge => ?_⟩
      exact absurd hge (by simp only [List.length_cons]; omega)
    · rename_i hnlt
      split
      · rename_i hs
        simp only at hs
        exact List.noConfusion hs
      · rename_i y rest2 hs
        simp only at hs
        obtain ⟨h1, h2⟩ := List.cons.inj hs
        subst h1
        subst h2
        obtain ⟨ih1, ih2, ih3⟩ := pull_up_to_parts rest (cached ++ [x]) flag i
        refine ⟨?_, ?_, ?_⟩
        · rw [ih1]
          simp
        · intro hi
          apply ih2
          simp only [List.length_append, List.length_cons, List.length_nil] at *
          omega
        · intro hge
          rw [ih3 (by
            simp only [List.length_append, List.length_cons, List.length_nil] at *
            omega)]
          simp

/-- pull_up_to_parts, restated on a whole CacheIterator value. -/
lemma pull_up_to_spec {α : Type} (c : CacheIterator α) (i : Nat) :
    ((c.pull_up_to i).cached_values ++ (c.pull_up_to i).source
        = c.cached_values ++ c.source)
    ∧ (i < c.total → i < (c.pull_up_to i).cached_values.length)
    ∧ (c.total ≤ i → c.pull_up_to i = ⟨c.cached_values ++ c.source, [], true⟩) := by
  obtain ⟨cached, src, flag⟩ := c
  exact pull_up_to_parts src cached flag i

/-- Reading an in-range index after pull_up_to gives the element of the
combined cached-plus-source sequence at that index. -/
lemma pull_up_to_getElem {α : Type} (c : CacheIterator α) (i : Nat)
    (h : i < c.total) :
    (c.pull_up_to i).cached_values[i]? = (c.cached_values ++ c.source)[i]? := by
  obtain ⟨h1, h2, -⟩ := pull_up_to_spec c i
  rw [← h1]
  exact (List.getElem?_append_left (h2 h)).symm

/-- C8: a negative index -i on the cache equals the positive index
total - i (the index computed against the fully materialized length), it
is in range exactly when 1 ≤ i ≤ total, its resolution forces full
materialization, and out-of-range indices in either direction give the
bounds error (None). -/
theorem C8_negative_indexing {α : Type} (c : CacheIterator α) (i : Nat)
    (h1 : 1 ≤ i) (h2 : i ≤ c.total) :
    (c.get_item (-(i : Int))).1 = (c.get_item ((c.total - i : Nat) : Int)).1
    ∧ ((c.get_item (-(i : Int))).1).isSome = true
    ∧ (c.get_item (-(i : Int))).2 = ⟨c.cached_values ++ c.source, [], true⟩
    ∧ (∀ j : Nat, c.total ≤ j → (c.get_item (j : Int)).1 = none)
    ∧ (∀ j : Nat, c.total < j → (c.get_item (-(j : Int))).1 = none) := by
  have hdrain : c.drain_all = ⟨c.cached_values ++ c.source, [], true⟩ :=
    (pull_up_to_spec c c.total).2.2 (le_refl _)
  have hlen : (c.cached_values ++ c.source).length = c.total := by
    simp [CacheIterator.total]
  have hneg : (-(i : Int)) < 0 := by omega
  have hnn : ¬((c.total - i : Nat) : Int) < 0 := by omega
  have hidx : ((((c.cached_values ++ c.source).length : Int)) + (-(i : Int))).toNat
      = c.total - i := by
    rw [hlen]; omega
  have hnotneg : ¬(((c.cached_values ++ c.source).length : Int) + (-(i : Int)) < 0) := by
    rw [hlen]; omega
  have hlt : c.total - i < c.total := by omega
  refine ⟨?_, ?_, ?_, ?_, ?_⟩
  · simp only [CacheIterator.get_item, if_pos hneg, if_neg hnn, hdrain, if_neg hnotneg,
      hidx, Int.toNat_ofNat]
    rw [pull_up_to_getElem c (c.total - i) hlt]
  · simp only [CacheIterator.get_item, if_pos hneg, hdrain, if_neg hnotneg, hidx]
    rw [Option.isSome_iff_exists]
    have : c.total - i < (c.cached_values ++ c.source).length := by rw [hlen]; exact hlt
    exact ⟨_, List.getElem?_eq_getElem this⟩
  · simp only [CacheIterator.get_item, if_pos hneg, hdrain]
  · intro j hj
    have hjnn : ¬((j : Int) < 0) := by omega
    simp only [CacheIterator.get_item, if_neg hjnn, Int.toNat_ofNat]
    have h3 := (pull_up_to_spec c j).2.2 hj
    rw [h3]
    exact List.getElem?_eq_none (by rw [hlen]; exact hj)
  · intro j hj
    have hjneg : (-(j : Int)) < 0 := by omega
    have : ((c.drain_all.cached_values.length : Int) + (-(j : Int)) < 0) := by
      rw [hdrain, hlen]; omega
    simp only [CacheIterator.get_item, if_pos hjneg, if_pos this]

/-- C8 witness: on the partially materialized cache [10 | 20, 30],
index -1 equals index total-1 = 2 (both 30), resolution drains the source,
and indices 3 and -4 are out of range. -/
theorem C8_negative_indexing_witness :
    ((CacheIterator.mk [10] [20, 30] false).get_item (-(1 : Nat) : Int)).1
      = ((CacheIterator.mk [10] [20, 30] false).get_item
          (((CacheIterator.mk [10] [20, 30] false).total - 1 : Nat) : Int)).1
    ∧ (((CacheIterator.mk [10] [20, 30] false).get_item (-(1 : Nat) : Int)).1).isSome = true
    ∧ (∀ j : Nat, (CacheIterator.mk [10] [20, 30] false).total ≤ j →
        (((CacheIterator.mk [10] [20, 30] false) : CacheIterator Nat).get_item (j : Int)).1 = none) :=
  ⟨(C8_negative_indexing (CacheIterator.mk [10] [20, 30] false) 1 (by decide) (by decide)).1,
   (C8_negative_indexing (CacheIterator.mk [10] [20, 30] false) 1 (by decide) (by decide)).2.1,
   (C8_negative_indexing (CacheIterator.mk [10] [20, 30] false) 1 (by decide) (by decide)).2.2.2.1⟩

/-- The critical-section program points: those a thread occupies only while
holding the session lock. -/
def inCS : TPC → Prop
  | TPC.innerCheck => True
  | TPC.guardCheck => True
  | TPC.doLogin => True
  | TPC.releasing _ => True
  | TPC.outerCheck => False
  | TPC.acquireLock => False
  | TPC.finished _ => False

lemma pcOf_setPc_same (c : ConcConfig) (t : Bool) (p : TPC) :
    pcOf (setPc c t p) t = p := by cases t <;> rfl

lemma pcOf_setPc_other (c : ConcConfig) (t u : Bool) (p : TPC) (h : u ≠ t) :
    pcOf (setPc c t p) u = pcOf c u := by
  cases t <;> cases u <;> simp_all [pcOf, setPc]

lemma setPc_session (c : ConcConfig) (t : Bool) (p : TPC) :
    (setPc c t p).session = c.session := by cases t <;> rfl

lemma setPc_lockHeld (c : ConcConfig) (t : Bool) (p : TPC) :
    (setPc c t p).lockHeld = c.lockHeld := by cases t <;> rfl

lemma setPc_loginCalls (c : ConcConfig) (t : Bool) (p : TPC) :
    (setPc c t p).loginCalls = c.loginCalls := by cases t <;> rfl

/-- With no recorded previous login attempt the too-fast guard never
fires. -/
lemma too_fast_no_previous (cfg : ClientConfig) (s : SessionState) (now : Nat)
    (h : s.last_login_retry = none) :
    _raise_exception_if_too_fast cfg s now = false := by
  unfold _raise_exception_if_too_fast
  rw [h]
  cases cfg.too_fast_login_retry_timeout <;> rfl

/-- The inductive invariant of the two-thread safe_login_if_not execution
from a fresh client with a succeeding provider: at most one login call so
far, the session is the initial one until the single login happens and the
logged-in one afterwards, every thread inside the critical section holds
the lock, threads at the guard or login step see an invalid session, and
threads releasing or finished carry an ok result over a valid session. -/
structure ConcInv (tok : String) (now : Nat) (c : ConcConfig) : Prop where
  calls_le : c.loginCalls ≤ 1
  state0 : c.loginCalls = 0 → c.session = ⟨none, true, none⟩
  state1 : c.loginCalls = 1 → c.session = ⟨some tok, false, some now⟩
  lockCS : ∀ u, inCS (pcOf c u) → c.lockHeld = some u
  csInvalid : ∀ u, (pcOf c u = TPC.guardCheck ∨ pcOf c u = TPC.doLogin) →
      c.session.session_invalid = true
  relOk : ∀ u r, pcOf c u = TPC.releasing r →
      r = Except.ok () ∧ c.session.session_invalid = false
  finOk : ∀ u r, pcOf c u = TPC.finished r →
      r = Except.ok () ∧ c.session.session_invalid = false

/-- The invariant holds initially. -/
lemma concInv_init (tok : String) (now : Nat) : ConcInv tok now initConc := by
  refine ⟨by simp [initConc], fun _ => rfl, fun h => by simp [initConc] at h,
    ?_, ?_, ?_, ?_⟩
  · intro u hcs
    cases u <;> simp [initConc, pcOf, inCS] at hcs
  · intro u h
    cases u <;> simp [initConc, pcOf] at h
  · intro u r h
    cases u <;> simp [initConc, pcOf] at h
  · intro u r h
    cases u <;> simp [initConc, pcOf] at h

/-- pcOf ignores the non-pc fields. -/
lemma pcOf_lock (c : ConcConfig) (lk : Option Bool) (u : Bool) :
    pcOf { c with lockHeld := lk } u = pcOf c u := by cases u <;> rfl

lemma pcOf_session_calls (c : ConcConfig) (s : SessionState) (n : Nat) (u : Bool) :
    pcOf { c with session := s, loginCalls := n } u = pcOf c u := by
  cases u <;> rfl

/-- Moving one thread to a new program point preserves the invariant,
provided the new point carries its own obligations. -/
lemma ConcInv.retarget {tok : String} {now : Nat} {c : ConcConfig}
    (h : ConcInv tok now c) (t : Bool) (p : TPC)
    (hlock : inCS p → c.lockHeld = some t)
    (hinv2 : (p = TPC.guardCheck ∨ p = TPC.doLogin) → c.session.session_invalid = true)
    (hrel2 : ∀ r, p = TPC.releasing r → r = Except.ok () ∧ c.session.session_invalid = false)
    (hfin2 : ∀ r, p = TPC.finished r → r = Except.ok () ∧ c.session.session_invalid = false) :
    ConcInv tok now (setPc c t p) := by
  refine ⟨?_, ?_, ?_, ?_, ?_, ?_, ?_⟩
  · rw [setPc_loginCalls]
    exact h.calls_le
  · rw [setPc_loginCalls, setPc_session]
    exact h.state0
  · rw [setPc_loginCalls, setPc_session]
    exact h.state1
  · intro u hcs
    rw [setPc_lockHeld]
    by_cases hu : u = t
    · subst hu
      rw [pcOf_setPc_same] at hcs
      exact hlock hcs
    · rw [pcOf_setPc_other _ _ _ _ hu] at hcs
      exact h.lockCS u hcs
  · intro u hu2
    rw [setPc_session]
    by_cases hu : u = t
    · subst hu
      rw [pcOf_setPc_same] at hu2
      exact hinv2 hu2
    · rw [pcOf_setPc_other _ _ _ _ hu] at hu2
      exact h.csInvalid u hu2
  · intro u r hr
    rw [setPc_session]
    by_cases hu : u = t
    · subst hu
      rw [pcOf_setPc_same] at hr
      exact hrel2 r hr
    · rw [pcOf_setPc_other _ _ _ _ hu] at hr
      exact h.relOk u r hr
  · intro u r hr
    rw [setPc_session]
    by_cases hu : u = t
    · subst hu
      rw [pcOf_setPc_same] at hr
      exact hfin2 r hr
    · rw [pcOf_setPc_other _ _ _ _ hu] at hr
      exact h.finOk u r hr

/-- One step of either thread preserves the invariant. -/
lemma concInv_step (cfg : ClientConfig) (tok : String) (now : Nat)
    (c : ConcConfig) (t : Bool) (h : ConcInv tok now c) :
    ConcInv tok now (threadStep cfg (some tok) now c t) := by
  rcases hpc : pcOf c t with _ | _ | _ | _ | _ | r | r
  -- outerCheck
  · simp only [threadStep, hpc]
    by_cases hsi : c.session.session_invalid
    · rw [if_pos hsi]
      refine h.retarget t TPC.acquireLock ?_ ?_ ?_ ?_
      · intro hcs
        simp [inCS] at hcs
      · intro h2
        rcases h2 with h2 | h2 <;> exact TPC.noConfusion h2
      · intro r2 h2
        exact TPC.noConfusion h2
      · intro r2 h2
        exact TPC.noConfusion h2
    · rw [if_neg hsi]
      refine h.retarget t (TPC.finished (Except.ok ())) ?_ ?_ ?_ ?_
      · intro hcs
        simp [inCS] at hcs
      · intro h2
        rcases h2 with h2 | h2 <;> exact TPC.noConfusion h2
      · intro r2 h2
        exact TPC.noConfusion h2
      · intro r2 h2
        exact ⟨(TPC.finished.inj h2).symm, by simpa using hsi⟩
  -- acquireLock
  · simp only [threadStep, hpc]
    rcases hlock : c.lockHeld with _ | v
    · have hc2 : ConcInv tok now { c with lockHeld := some t } := by
        refine ⟨h.calls_le, h.state0, h.state1, ?_, ?_, ?_, ?_⟩
        · intro u hcs
          rw [pcOf_lock] at hcs
          have := h.lockCS u hcs
          rw [hlock] at this
          exact Option.noConfusion this
        · intro u hu2
          rw [pcOf_lock] at hu2
          exact h.csInvalid u hu2
        · intro u r2 hr
          rw [pcOf_lock] at hr
          exact h.relOk u r2 hr
        · intro u r2 hr
          rw [pcOf_lock] at hr
          exact h.finOk u r2 hr
      refine hc2.retarget t TPC.innerCheck ?_ ?_ ?_ ?_
      · intro _
        rfl
      · intro h2
        rcases h2 with h2 | h2 <;> exact TPC.noConfusion h2
      · intro r2 h2
        exact TPC.noConfusion h2
      · intro r2 h2
        exact TPC.noConfusion h2
    · exact h
  -- innerCheck
  · simp only [threadStep, hpc]
    have hlk := h.lockCS t (by rw [hpc]; trivial)
    by_cases hsi : c.session.session_invalid
    · rw [if_pos hsi]
      refine h.retarget t TPC.guardCheck (fun _ => hlk) (fun _ => hsi) ?_ ?_
      · intro r2 h2
        exact TPC.noConfusion h2
      · intro r2 h2
        exact TPC.noConfusion h2
    · rw [if_neg hsi]
      refine h.retarget t (TPC.releasing (Except.ok ())) (fun _ => hlk) ?_ ?_ ?_
      · intro h2
        rcases h2 with h2 | h2 <;> exact TPC.noConfusion h2
      · intro r2 h2
        exact ⟨(TPC.releasing.inj h2).symm, by simpa using hsi⟩
      · intro r2 h2
        exact TPC.noConfusion h2
  -- guardCheck
  · have hinv := h.csInvalid t (Or.inl hpc)
    have hc0 : c.loginCalls = 0 := by
      rcases Nat.lt_or_ge c.loginCalls 1 with h1 | h1
      · omega
      · have h2 : c.loginCalls = 1 := le_antisymm h.calls_le h1
        have h3 := h.state1 h2
        rw [h3] at hinv
        exact absurd hinv (by simp)
    have hsess := h.state0 hc0
    have hguard : _raise_exception_if_too_fast cfg c.session now = false :=
      too_fast_no_previous cfg c.session now (by rw [hsess])
    have hlk := h.lockCS t (by rw [hpc]; trivial)
    simp only [threadStep, hpc, hguard]
    rw [if_neg (by simp : ¬(false = true))]
    refine h.retarget t TPC.doLogin (fun _ => hlk) (fun _ => hinv) ?_ ?_
    · intro r2 h2
      exact TPC.noConfusion h2
    · intro r2 h2
      exact TPC.noConfusion h2
  -- doLogin
  · have hinv := h.csInvalid t (Or.inr hpc)
    have hc0 : c.loginCalls = 0 := by
      rcases Nat.lt_or_ge c.loginCalls 1 with h1 | h1
      · omega
      · have h2 : c.loginCalls = 1 := le_antisymm h.calls_le h1
        have h3 := h.state1 h2
        rw [h3] at hinv
        exact absurd hinv (by simp)
    have hlk := h.lockCS t (by rw [hpc]; trivial)
    simp only [threadStep, hpc, login]
    refine ⟨?_, ?_, ?_, ?_, ?_, ?_, ?_⟩
    · rw [setPc_loginCalls]
      simp [hc0]
    · rw [setPc_loginCalls, setPc_session]
      intro h2
      simp [hc0] at h2
    · rw [setPc_loginCalls, setPc_session]
      intro _
      rfl
    · intro u hcs
      rw [setPc_lockHeld]
      by_cases hu : u = t
      · subst hu
        exact hlk
      · rw [pcOf_setPc_other _ _ _ _ hu, pcOf_session_calls] at hcs
        exact h.lockCS u hcs
    · intro u hu2
      rw [setPc_session]
      by_cases hu : u = t
      · subst hu
        rw [pcOf_setPc_same] at hu2
        rcases hu2 with h2 | h2 <;> exact TPC.noConfusion h2
      · rw [pcOf_setPc_other _ _ _ _ hu, pcOf_session_calls] at hu2
        have hlku := h.lockCS u
          (by rcases hu2 with h2 | h2 <;> rw [h2] <;> trivial)
        rw [hlk] at hlku
        exact absurd (Option.some.inj hlku).symm hu
    · intro u r2 hr
      rw [setPc_session]
      by_cases hu : u = t
      · subst hu
        rw [pcOf_setPc_same] at hr
        exact ⟨(TPC.releasing.inj hr).symm, rfl⟩
      · rw [pcOf_setPc_other _ _ _ _ hu, pcOf_session_calls] at hr
        have h2 := (h.relOk u r2 hr).2
        rw [hinv] at h2
        exact Bool.noConfusion h2
    · intro u r2 hr
      rw [setPc_session]
      by_cases hu : u = t
      · subst hu
        rw [pcOf_setPc_same] at hr
        exact TPC.noConfusion hr
      · rw [pcOf_setPc_other _ _ _ _ hu, pcOf_session_calls] at hr
        have h2 := (h.finOk u r2 hr).2
        rw [hinv] at h2
        exact Bool.noConfusion h2
  -- releasing
  · have hrel := h.relOk t r hpc
    have hlk := h.lockCS t (by rw [hpc]; trivial)
    simp only [threadStep, hpc]
    refine ⟨?_, ?_, ?_, ?_, ?_, ?_, ?_⟩
    · rw [setPc_loginCalls]
      exact h.calls_le
    · rw [setPc_loginCalls, setPc_session]
      exact h.state0
    · rw [setPc_loginCalls, setPc_session]
      exact h.state1
    · intro u hcs
      rw [setPc_lockHeld]
      by_cases hu : u = t
      · subst hu
        rw [pcOf_setPc_same] at hcs
        simp [inCS] at hcs
      · rw [pcOf_setPc_other _ _ _ _ hu, pcOf_lock] at hcs
        have hlku := h.lockCS u hcs
        rw [hlk] at hlku
        exact absurd (Option.some.inj hlku).symm hu
    · intro u hu2
      rw [setPc_session]
      by_cases hu : u = t
      · subst hu
        rw [pcOf_setPc_same] at hu2
        rcases hu2 with h2 | h2 <;> exact TPC.noConfusion h2
      · rw [pcOf_setPc_other _ _ _ _ hu, pcOf_lock] at hu2
        exact h.csInvalid u hu2
    · intro u r2 hr
      rw [setPc_session]
      by_cases hu : u = t
      · subst hu
        rw [pcOf_setPc_same] at hr
        exact TPC.noConfusion hr
      · rw [pcOf_setPc_other _ _ _ _ hu, pcOf_lock] at hr
        exact h.relOk u r2 hr
    · intro u r2 hr
      rw [setPc_session]
      by_cases hu : u = t
      · subst hu
        rw [pcOf_setPc_same] at hr
        exact ⟨(TPC.finished.inj hr).symm ▸ hrel.1, hrel.2⟩
      · rw [pcOf_setPc_other _ _ _ _ hu, pcOf_lock] at hr
        exact h.finOk u r2 hr
  -- finished
  · simp only [threadStep, hpc]
    exact h

/-- Any schedule preserves the invariant. -/
lemma concInv_run (cfg : ClientConfig) (tok : String) (now : Nat) :
    ∀ (schedule : List Bool) (c : ConcConfig), ConcInv tok now c →
      ConcInv tok now (runSchedule cfg (some tok) now c schedule)
  | [], _, h => h
  | t :: ts, c, h =>
    concInv_run cfg tok now ts _ (concInv_step cfg tok now c t h)

/-- C9: from a fresh client and a succeeding provider, every interleaving
of two concurrent safe_login_if_not calls makes at most one provider login
call; when both calls have returned, exactly one login happened, the
session holds the new token, and both callers got the ok outcome (no
overlapping login and no intermediate state observed). -/
theorem C9_single_flight_login (cfg : ClientConfig) (tok : String) (now : Nat)
    (schedule : List Bool) :
    (runSchedule cfg (some tok) now initConc schedule).loginCalls ≤ 1
    ∧ (bothFinished (runSchedule cfg (some tok) now initConc schedule) →
        (runSchedule cfg (some tok) now initConc schedule).loginCalls = 1
        ∧ (runSchedule cfg (some tok) now initConc schedule).session
            = ⟨some tok, false, some now⟩)
    ∧ (∀ u r, pcOf (runSchedule cfg (some tok) now initConc schedule) u
          = TPC.finished r → r = Except.ok ()) := by
  have hinv := concInv_run cfg tok now schedule initConc (concInv_init tok now)
  refine ⟨hinv.calls_le, ?_, fun u r hr => (hinv.finOk u r hr).1⟩
  intro hfin
  obtain ⟨⟨rA, hA⟩, -⟩ := hfin
  have hvalid := (hinv.finOk true rA (by simpa [pcOf] using hA)).2
  have hc1 : (runSchedule cfg (some tok) now initConc schedule).loginCalls = 1 := by
    rcases Nat.lt_or_ge (runSchedule cfg (some tok) now initConc schedule).loginCalls 1
      with h1 | h1
    · have h0 : (runSchedule cfg (some tok) now initConc schedule).loginCalls = 0 := by
        omega
      have := hinv.state0 h0
      rw [this] at hvalid
      exact absurd hvalid (by simp)
    · exact le_antisymm hinv.calls_le h1
  exact ⟨hc1, hinv.state1 hc1⟩

/-- C9 witness: a concrete interleaving that completes both calls with one
login. -/
theorem C9_single_flight_login_witness :
    (runSchedule ⟨some 1, true⟩ (some "tok") 50 initConc
        [true, true, true, true, true, true, false]).loginCalls = 1 :=
  ((C9_single_flight_login ⟨some 1, true⟩ "tok" 50
      [true, true, true, true, true, true, false]).2.1
    ⟨⟨Except.ok (), rfl⟩, ⟨Except.ok (), rfl⟩⟩).1

end FMData
